import Mathlib

/-!
Verification of the account-ledger and transfer engine of the banking API.

The data model follows prisma/schema.prisma (Customer, Account, Transfer);
monetary values are modelled as integers in the currency-agnostic unit.
The store is a snapshot of the three tables together with the autoincrement
counters.  Errors are the exceptions thrown by the services, tagged by the
constructor corresponding to each message string, and classified into the
NotFound / InvalidArgument taxonomy of the specification.

Two variants of `accountTransfer` coexist in the repository: the
non-transactional one in src/services/transferService.js (checks evaluated
before the transaction starts, same-account check last) and the transactional
one (checks evaluated inside the transaction, same-account check second).
Both are embedded below, in namespaces `TransferService` and
`TransferServiceTx` respectively.
-/

structure Customer where
  id : Nat
  name : String
deriving Repr, DecidableEq

structure Account where
  id : Nat
  customerId : Nat
  balance : Int
deriving Repr, DecidableEq

structure Transfer where
  id : Nat
  fromAccountId : Nat
  toAccountId : Nat
  amount : Int
  timestamp : Nat
deriving Repr, DecidableEq

structure Store where
  customers : List Customer
  accounts : List Account
  transfers : List Transfer
  nextAccountId : Nat
  nextTransferId : Nat
deriving Repr, DecidableEq

/-- The exceptions thrown by the services, one constructor per message. -/
inductive Err where
  /-- "Transfer amount must be positive and more than Zero" -/
  | amountNotPositive
  /-- "Cannot transfer to the same account" -/
  | sameAccount
  /-- "Source account does not exist" -/
  | sourceMissing
  /-- "Destination account does not exist" -/
  | destMissing
  /-- "Insufficient funds" -/
  | insufficientFunds
  /-- "Customer not found" -/
  | customerNotFound
  /-- "Initial Deposit must be greater Zero" -/
  | depositNotPositive
  /-- "Account not found" -/
  | accountNotFound
deriving Repr, DecidableEq

/-- The error taxonomy of spec section 7. -/
inductive ErrKind where
  | notFound
  | invalidArgument
deriving Repr, DecidableEq

/-- Classification of each thrown error into the spec's taxonomy:
NotFound for missing Customer/Account references, InvalidArgument for
business-rule violations (non-positive amount or deposit, same-account
transfer, insufficient funds). -/
def Err.kind : Err → ErrKind
  | .sourceMissing => .notFound
  | .destMissing => .notFound
  | .customerNotFound => .notFound
  | .accountNotFound => .notFound
  | .amountNotPositive => .invalidArgument
  | .sameAccount => .invalidArgument
  | .insufficientFunds => .invalidArgument
  | .depositNotPositive => .invalidArgument

/-- prisma.account.findUnique({ where: { id } }). -/
def findAccount (accounts : List Account) (id : Nat) : Option Account :=
  accounts.find? (fun a => a.id = id)

/-- prisma.customer.findUnique({ where: { id } }). -/
def findCustomer (customers : List Customer) (id : Nat) : Option Customer :=
  customers.find? (fun c => c.id = id)

/-- tx.account.update with balance increment (a decrement is an increment
by a negative delta): the row with the given id gets its balance shifted. -/
def updateBalance (accounts : List Account) (id : Nat) (delta : Int) : List Account :=
  accounts.map (fun a => if a.id = id then { a with balance := a.balance + delta } else a)

/-- The object returned by a successful accountTransfer:
{ transfer, fromAccount, toAccount }. -/
structure TransferResult where
  transfer : Transfer
  fromAccount : Account
  toAccount : Account
deriving Repr, DecidableEq

deriving instance DecidableEq for Except

namespace AccountService

/-- src/services/accountService.js createAccount: look up the customer
(NotFound when missing), reject a non-positive initial deposit, then insert
one Account row with balance = initialDeposit and the generated id. -/
def createAccount (s : Store) (customerId : Nat) (initialDeposit : Int) :
    Except Err (Store × Account) :=
  match findCustomer s.customers customerId with
  | none => .error .customerNotFound
  | some _ =>
    if initialDeposit ≤ 0 then .error .depositNotPositive
    else
      let account : Account :=
        { id := s.nextAccountId, customerId := customerId, balance := initialDeposit }
      .ok ({ s with accounts := s.accounts ++ [account],
                    nextAccountId := s.nextAccountId + 1 }, account)

/-- src/services/accountService.js getBalance. -/
def getBalance (s : Store) (accountId : Nat) : Except Err (Nat × Int) :=
  match findAccount s.accounts accountId with
  | none => .error .accountNotFound
  | some a => .ok (a.id, a.balance)

end AccountService

namespace TransferService

/-- src/services/transferService.js accountTransfer, the non-transactional
variant: amount check, source lookup, destination lookup, balance check and
same-account check all happen before the transaction; the transaction then
performs decrement, increment and the Transfer insert.  `now` is the store
clock used for the created row's timestamp. -/
def accountTransfer (s : Store) (fromAccountId toAccountId : Nat) (amount : Int)
    (now : Nat) : Except Err (Store × TransferResult) :=
  if amount ≤ 0 then .error .amountNotPositive
  else
    match findAccount s.accounts fromAccountId with
    | none => .error .sourceMissing
    | some fromAccount =>
      match findAccount s.accounts toAccountId with
      | none => .error .destMissing
      | some toAccount =>
        if fromAccount.balance < amount then .error .insufficientFunds
        else if fromAccountId = toAccountId then .error .sameAccount
        else
          let transfer : Transfer :=
            { id := s.nextTransferId, fromAccountId := fromAccountId,
              toAccountId := toAccountId, amount := amount, timestamp := now }
          .ok ({ s with
                  accounts := updateBalance (updateBalance s.accounts fromAccountId (-amount))
                    toAccountId amount,
                  transfers := s.transfers ++ [transfer],
                  nextTransferId := s.nextTransferId + 1 },
               { transfer := transfer,
                 fromAccount := { fromAccount with balance := fromAccount.balance - amount },
                 toAccount := { toAccount with balance := toAccount.balance + amount } })

end TransferService

namespace TransferServiceTx

/-- The transactional accountTransfer variant: amount check and same-account
check first, then — inside prisma.$transaction, one atomic unit — source
lookup, destination lookup, balance check, decrement, increment and the
Transfer insert. -/
def accountTransfer (s : Store) (fromAccountId toAccountId : Nat) (amount : Int)
    (now : Nat) : Except Err (Store × TransferResult) :=
  if amount ≤ 0 then .error .amountNotPositive
  else if fromAccountId = toAccountId then .error .sameAccount
  else
    match findAccount s.accounts fromAccountId with
    | none => .error .sourceMissing
    | some fromAccount =>
      match findAccount s.accounts toAccountId with
      | none => .error .destMissing
      | some toAccount =>
        if fromAccount.balance < amount then .error .insufficientFunds
        else
          let transfer : Transfer :=
            { id := s.nextTransferId, fromAccountId := fromAccountId,
              toAccountId := toAccountId, amount := amount, timestamp := now }
          .ok ({ s with
                  accounts := updateBalance (updateBalance s.accounts fromAccountId (-amount))
                    toAccountId amount,
                  transfers := s.transfers ++ [transfer],
                  nextTransferId := s.nextTransferId + 1 },
               { transfer := transfer,
                 fromAccount := { fromAccount with balance := fromAccount.balance - amount },
                 toAccount := { toAccount with balance := toAccount.balance + amount } })

end TransferServiceTx

/-- Balance of an account id in a store (0 when the id is absent). -/
def balanceOf (s : Store) (accountId : Nat) : Int :=
  ((findAccount s.accounts accountId).map (fun a => a.balance)).getD 0

/-- A small concrete store used to exercise the theorems: two seeded
customers, account 1 (customer 1, balance 100) and account 2 (customer 2,
balance 0), no transfers yet. -/
def demoStore : Store :=
  { customers := [⟨1, "Arisha Barron"⟩, ⟨2, "Branden Gibson"⟩],
    accounts := [⟨1, 1, 100⟩, ⟨2, 2, 0⟩],
    transfers := [], nextAccountId := 3, nextTransferId := 1 }

/-- The store obtained from `demoStore` by the successful transfer of 60 from
account 1 to account 2 at timestamp 0. -/
def demoStoreAfter : Store :=
  { customers := [⟨1, "Arisha Barron"⟩, ⟨2, "Branden Gibson"⟩],
    accounts := [⟨1, 1, 40⟩, ⟨2, 2, 60⟩],
    transfers := [⟨1, 1, 2, 60, 0⟩], nextAccountId := 3, nextTransferId := 2 }

/-- An account found by id has that id. -/
theorem findAccount_id {l : List Account} {i : Nat} {a : Account}
    (h : findAccount l i = some a) : a.id = i := by
  simpa using List.find?_some h

/-- A balance update does not change an account's id. -/
theorem accountId_update (a : Account) (j : Nat) (d : Int) :
    (if a.id = j then { a with balance := a.balance + d } else a).id = a.id := by
  split <;> rfl

/-- Point lookup commutes with a balance update, because the update preserves
every row's id. -/
theorem findAccount_updateBalance (l : List Account) (i j : Nat) (d : Int) :
    findAccount (updateBalance l j d) i =
      (findAccount l i).map
        (fun a => if a.id = j then { a with balance := a.balance + d } else a) := by
  induction l with
  | nil => rfl
  | cons hd tl ih =>
    have h1 : (if hd.id = j then { hd with balance := hd.balance + d } else hd).id = hd.id :=
      accountId_update hd j d
    by_cases hid : hd.id = i
    · rw [findAccount, updateBalance, List.map_cons,
        List.find?_cons_of_pos _ (by simp only [h1]; simp [hid]),
        findAccount, List.find?_cons_of_pos _ (by simp [hid])]
      rfl
    · rw [findAccount, updateBalance, List.map_cons,
        List.find?_cons_of_neg _ (by simp only [h1]; simp [hid]),
        findAccount, List.find?_cons_of_neg _ (by simp [hid])]
      exact ih

namespace TransferServiceTx

/-- Inversion of a successful transactional accountTransfer: the amount was
positive, the accounts distinct and existing, the source balance sufficient,
and the resulting store and return value have exactly the shape built by the
transaction body. -/
theorem accountTransfer_ok {s : Store} {f t : Nat} {a : Int} {now : Nat}
    {s' : Store} {r : TransferResult}
    (h : accountTransfer s f t a now = .ok (s', r)) :
    0 < a ∧ f ≠ t ∧ ∃ fa ta,
      findAccount s.accounts f = some fa ∧ findAccount s.accounts t = some ta ∧
      a ≤ fa.balance ∧
      s' = { s with accounts := updateBalance (updateBalance s.accounts f (-a)) t a,
                    transfers := s.transfers ++ [⟨s.nextTransferId, f, t, a, now⟩],
                    nextTransferId := s.nextTransferId + 1 } ∧
      r = ⟨⟨s.nextTransferId, f, t, a, now⟩,
           { fa with balance := fa.balance - a },
           { ta with balance := ta.balance + a }⟩ := by
  unfold accountTransfer at h
  split at h
  · exact absurd h (by simp)
  rename_i h0
  split at h
  · exact absurd h (by simp)
  rename_i hft
  split at h
  · exact absurd h (by simp)
  rename_i fa hfa
  split at h
  · exact absurd h (by simp)
  rename_i ta hta
  split at h
  · exact absurd h (by simp)
  rename_i hbal
  simp only [Except.ok.injEq, Prod.mk.injEq] at h
  exact ⟨by omega, hft, fa, ta, hfa, hta, by omega, h.1.symm, h.2.symm⟩

end TransferServiceTx

/-- C6: a transfer from an account to itself with a positive amount always
fails with the same-account error, which is of the InvalidArgument kind,
whatever the store, the account's existence, its balance or the amount. -/
theorem c6_self_transfer_invalid (s : Store) (accountId : Nat) (amount : Int) (now : Nat)
    (hpos : 0 < amount) :
    TransferServiceTx.accountTransfer s accountId accountId amount now =
      .error .sameAccount ∧
    Err.kind .sameAccount = .invalidArgument := by
  refine ⟨?_, rfl⟩
  unfold TransferServiceTx.accountTransfer
  rw [if_neg (by omega), if_pos rfl]

/-- Instantiation of `c6_self_transfer_invalid` on a concrete store, both at
an existing well-funded account and at an absent account id. -/
theorem c6_self_transfer_invalid_witness :
    TransferServiceTx.accountTransfer demoStore 1 1 10 0 = .error .sameAccount ∧
    TransferServiceTx.accountTransfer demoStore 7 7 10 0 = .error .sameAccount :=
  ⟨(c6_self_transfer_invalid demoStore 1 10 0 (by decide)).1,
   (c6_self_transfer_invalid demoStore 7 10 0 (by decide)).1⟩

/-- C2: the validations of the transactional accountTransfer apply in the
order amount-positive, distinct-accounts, source-exists, destination-exists,
sufficient-balance; the first failing check determines the reported error,
and a non-positive amount is rejected whatever the store contents, so no
account lookup can influence that outcome. -/
theorem c2_validation_order (s : Store) (f t : Nat) (a : Int) (now : Nat) :
    (a ≤ 0 →
      TransferServiceTx.accountTransfer s f t a now = .error .amountNotPositive ∧
      Err.kind .amountNotPositive = .invalidArgument) ∧
    (0 < a → f = t →
      TransferServiceTx.accountTransfer s f t a now = .error .sameAccount ∧
      Err.kind .sameAccount = .invalidArgument) ∧
    (0 < a → f ≠ t → findAccount s.accounts f = none →
      TransferServiceTx.accountTransfer s f t a now = .error .sourceMissing ∧
      Err.kind .sourceMissing = .notFound) ∧
    (0 < a → f ≠ t → ∀ fa, findAccount s.accounts f = some fa →
      findAccount s.accounts t = none →
      TransferServiceTx.accountTransfer s f t a now = .error .destMissing ∧
      Err.kind .destMissing = .notFound) ∧
    (0 < a → f ≠ t → ∀ fa ta, findAccount s.accounts f = some fa →
      findAccount s.accounts t = some ta → fa.balance < a →
      TransferServiceTx.accountTransfer s f t a now = .error .insufficientFunds ∧
      Err.kind .insufficientFunds = .invalidArgument) := by
  refine ⟨?_, ?_, ?_, ?_, ?_⟩
  · intro h0
    unfold TransferServiceTx.accountTransfer
    rw [if_pos h0]
    exact ⟨rfl, rfl⟩
  · intro h0 hft
    unfold TransferServiceTx.accountTransfer
    rw [if_neg (by omega), if_pos hft]
    exact ⟨rfl, rfl⟩
  · intro h0 hft hnone
    unfold TransferServiceTx.accountTransfer
    rw [if_neg (by omega), if_neg hft, hnone]
    exact ⟨rfl, rfl⟩
  · intro h0 hft fa hfa hnone
    unfold TransferServiceTx.accountTransfer
    rw [if_neg (by omega), if_neg hft, hfa, hnone]
    exact ⟨rfl, rfl⟩
  · intro h0 hft fa ta hfa hta hbal
    unfold TransferServiceTx.accountTransfer
    rw [if_neg (by omega), if_neg hft, hfa, hta]
    exact ⟨if_pos hbal, rfl⟩

namespace TransferService

/-- Inversion of a successful non-transactional accountTransfer: exactly the
same conditions and result shape as for the transactional variant (the two
variants differ only in where failing runs stop). -/
theorem accountTransfer_ok_legacy {s : Store} {f t : Nat} {a : Int} {now : Nat}
    {s' : Store} {r : TransferResult}
    (h : accountTransfer s f t a now = .ok (s', r)) :
    0 < a ∧ f ≠ t ∧ ∃ fa ta,
      findAccount s.accounts f = some fa ∧ findAccount s.accounts t = some ta ∧
      a ≤ fa.balance ∧
      s' = { s with accounts := updateBalance (updateBalance s.accounts f (-a)) t a,
                    transfers := s.transfers ++ [⟨s.nextTransferId, f, t, a, now⟩],
                    nextTransferId := s.nextTransferId + 1 } ∧
      r = ⟨⟨s.nextTransferId, f, t, a, now⟩,
           { fa with balance := fa.balance - a },
           { ta with balance := ta.balance + a }⟩ := by
  unfold accountTransfer at h
  split at h
  · exact absurd h (by simp)
  rename_i h0
  split at h
  · exact absurd h (by simp)
  rename_i fa hfa
  split at h
  · exact absurd h (by simp)
  rename_i ta hta
  split at h
  · exact absurd h (by simp)
  rename_i hbal
  split at h
  · exact absurd h (by simp)
  rename_i hft
  simp only [Except.ok.injEq, Prod.mk.injEq] at h
  exact ⟨by omega, hft, fa, ta, hfa, hta, by omega, h.1.symm, h.2.symm⟩

end TransferService

namespace AccountService

/-- Inversion of a successful createAccount: the customer existed, the
deposit was positive, one account row with the generated id and balance =
initialDeposit was appended, and that row is returned. -/
theorem createAccount_ok {s : Store} {customerId : Nat} {initialDeposit : Int}
    {s' : Store} {acc : Account}
    (h : createAccount s customerId initialDeposit = .ok (s', acc)) :
    0 < initialDeposit ∧ (findCustomer s.customers customerId).isSome = true ∧
    s' = { s with
            accounts := s.accounts ++ [⟨s.nextAccountId, customerId, initialDeposit⟩],
            nextAccountId := s.nextAccountId + 1 } ∧
    acc = ⟨s.nextAccountId, customerId, initialDeposit⟩ := by
  unfold createAccount at h
  split at h
  · exact absurd h (by simp)
  rename_i c hc
  split at h
  · exact absurd h (by simp)
  rename_i hdep
  simp only [Except.ok.injEq, Prod.mk.injEq] at h
  exact ⟨by omega, by rw [hc]; rfl, h.1.symm, h.2.symm⟩

end AccountService

/-- Two rows of a list with pairwise-distinct ids that share an id are the
same row. -/
theorem nodupIds_eq {l : List Account} (hnd : (l.map (fun a => a.id)).Nodup)
    {a b : Account} (ha : a ∈ l) (hb : b ∈ l) (hid : a.id = b.id) : a = b := by
  by_contra hne
  have hpw : l.Pairwise (fun x y => x.id ≠ y.id) := List.pairwise_map.mp hnd
  exact hpw.forall (by intro x y hxy hh; exact hxy hh.symm) ha hb hne hid

/-- A balance update preserves the list of account ids. -/
theorem updateBalance_ids (l : List Account) (j : Nat) (d : Int) :
    (updateBalance l j d).map (fun a => a.id) = l.map (fun a => a.id) := by
  unfold updateBalance
  rw [List.map_map]
  exact List.map_congr_left fun a _ => accountId_update a j d

/-- All balances are non-negative. -/
def nonNegBalances (s : Store) : Prop := ∀ acc ∈ s.accounts, 0 ≤ acc.balance

/-- Account ids are pairwise distinct and below the autoincrement counter. -/
def freshIds (s : Store) : Prop :=
  (s.accounts.map (fun a => a.id)).Nodup ∧
  ∀ acc ∈ s.accounts, acc.id < s.nextAccountId

/-- The states reachable through the public mutating operations: any store
with no accounts yet, extended by successful createAccount calls and by
successful transfers (either variant).  getBalance and getTransferHistory
are pure reads and do not change the store. -/
inductive Reachable : Store → Prop where
  | init (customers : List Customer) (nextAccountId nextTransferId : Nat) :
      Reachable { customers := customers, accounts := [], transfers := [],
                  nextAccountId := nextAccountId, nextTransferId := nextTransferId }
  | create {s s' : Store} {customerId : Nat} {initialDeposit : Int} {acc : Account}
      (hs : Reachable s)
      (h : AccountService.createAccount s customerId initialDeposit = .ok (s', acc)) :
      Reachable s'
  | transfer {s s' : Store} {f t : Nat} {a : Int} {now : Nat} {r : TransferResult}
      (hs : Reachable s)
      (h : TransferServiceTx.accountTransfer s f t a now = .ok (s', r)) :
      Reachable s'
  | legacyTransfer {s s' : Store} {f t : Nat} {a : Int} {now : Nat} {r : TransferResult}
      (hs : Reachable s)
      (h : TransferService.accountTransfer s f t a now = .ok (s', r)) :
      Reachable s'

/-- The store produced by a successful transfer keeps balances non-negative
and ids fresh. -/
theorem updated_store_inv {s : Store} {f t : Nat} (a : Int) (now : Nat)
    {fa ta : Account}
    (hnn : nonNegBalances s) (hids : freshIds s)
    (hfa : findAccount s.accounts f = some fa)
    (hta : findAccount s.accounts t = some ta)
    (h0 : 0 < a) (hle : a ≤ fa.balance) (hft : f ≠ t) :
    nonNegBalances
      { s with accounts := updateBalance (updateBalance s.accounts f (-a)) t a,
               transfers := s.transfers ++ [⟨s.nextTransferId, f, t, a, now⟩],
               nextTransferId := s.nextTransferId + 1 } ∧
    freshIds
      { s with accounts := updateBalance (updateBalance s.accounts f (-a)) t a,
               transfers := s.transfers ++ [⟨s.nextTransferId, f, t, a, now⟩],
               nextTransferId := s.nextTransferId + 1 } := by
  have hfam : fa ∈ s.accounts := List.mem_of_find?_eq_some hfa
  have hfid : fa.id = f := findAccount_id hfa
  refine ⟨?_, ?_, ?_⟩
  · intro acc hacc
    simp only [updateBalance, List.map_map, List.mem_map, Function.comp] at hacc
    obtain ⟨x, hx, rfl⟩ := hacc
    by_cases hxf : x.id = f
    · have hxfa : x = fa := nodupIds_eq hids.1 hx hfam (by rw [hxf, hfid])
      subst hxfa
      have hxt : ¬ (x.id = t) := by rw [hxf]; exact hft
      simp only [if_pos hxf]
      have : ¬ (({ x with balance := x.balance + -a } : Account).id = t) := hxt
      simp only [if_neg this]
      show 0 ≤ x.balance + -a
      omega
    · simp only [if_neg hxf]
      by_cases hxt : x.id = t
      · simp only [if_pos hxt]
        have := hnn x hx
        show 0 ≤ x.balance + a
        omega
      · simp only [if_neg hxt]
        exact hnn x hx
  · show ((updateBalance (updateBalance s.accounts f (-a)) t a).map
      (fun a => a.id)).Nodup
    rw [updateBalance_ids, updateBalance_ids]
    exact hids.1
  · intro acc hacc
    simp only [updateBalance, List.map_map, List.mem_map, Function.comp] at hacc
    obtain ⟨x, hx, rfl⟩ := hacc
    have h2 : ∀ y : Account, ∀ j : Nat, ∀ d : Int,
        (if y.id = j then { y with balance := y.balance + d } else y).id = y.id :=
      fun y j d => accountId_update y j d
    calc ((fun b => if b.id = t then { b with balance := b.balance + a } else b)
            ((fun b => if b.id = f then { b with balance := b.balance + -a } else b) x)).id
        = x.id := by rw [h2, h2]
      _ < s.nextAccountId := hids.2 x hx

/-- The store produced by a successful createAccount keeps balances
non-negative and ids fresh. -/
theorem created_store_inv {s : Store} {customerId : Nat} {initialDeposit : Int}
    (hnn : nonNegBalances s) (hids : freshIds s) (hdep : 0 < initialDeposit) :
    nonNegBalances
      { s with accounts := s.accounts ++ [⟨s.nextAccountId, customerId, initialDeposit⟩],
               nextAccountId := s.nextAccountId + 1 } ∧
    freshIds
      { s with accounts := s.accounts ++ [⟨s.nextAccountId, customerId, initialDeposit⟩],
               nextAccountId := s.nextAccountId + 1 } := by
  refine ⟨?_, ?_, ?_⟩
  · intro acc hacc
    rcases List.mem_append.mp hacc with hacc | hacc
    · exact hnn acc hacc
    · simp only [List.mem_singleton] at hacc
      subst hacc
      show (0 : Int) ≤ initialDeposit
      omega
  · simp only [List.map_append]
    rw [List.nodup_append]
    refine ⟨hids.1, by simp, ?_⟩
    intro i hi hi2
    simp only [List.map_cons, List.map_nil, List.mem_singleton] at hi2
    subst hi2
    obtain ⟨x, hx, hxi⟩ := List.mem_map.mp hi
    exact absurd hxi (by have := hids.2 x hx; omega)
  · intro acc hacc
    rcases List.mem_append.mp hacc with hacc | hacc
    · have := hids.2 acc hacc
      show acc.id < s.nextAccountId + 1
      omega
    · simp only [List.mem_singleton] at hacc
      subst hacc
      show s.nextAccountId < s.nextAccountId + 1
      omega

/-- Every reachable store has non-negative balances and fresh account ids. -/
theorem reachable_inv {s : Store} (h : Reachable s) :
    nonNegBalances s ∧ freshIds s := by
  induction h with
  | init customers na nt =>
    exact ⟨fun acc hacc => by simp at hacc, by simp, fun acc hacc => by simp at hacc⟩
  | create hs hok ih =>
    obtain ⟨hdep, -, hs', -⟩ := AccountService.createAccount_ok hok
    subst hs'
    exact created_store_inv ih.1 ih.2 hdep
  | transfer hs hok ih =>
    obtain ⟨h0, hft, fa, ta, hfa, hta, hle, hs', -⟩ :=
      TransferServiceTx.accountTransfer_ok hok
    subst hs'
    exact updated_store_inv _ _ ih.1 ih.2 hfa hta h0 hle hft
  | legacyTransfer hs hok ih =>
    obtain ⟨h0, hft, fa, ta, hfa, hta, hle, hs', -⟩ :=
      TransferService.accountTransfer_ok_legacy hok
    subst hs'
    exact updated_store_inv _ _ ih.1 ih.2 hfa hta h0 hle hft

/-- C7: every account balance is non-negative in every store reachable
through the public operations — createAccount only ever inserts a strictly
positive balance, and a completed transfer never drives any balance below
zero. -/
theorem c7_balances_nonneg {s : Store} (h : Reachable s) :
    ∀ acc ∈ s.accounts, 0 ≤ acc.balance :=
  (reachable_inv h).1

/-- A run reaching a concrete store: seed one customer, open account 1 with
deposit 100 and account 2 with deposit 60, then transfer 50 from account 1
to account 2; `c7_balances_nonneg` applies to the resulting state. -/
theorem c7_balances_nonneg_witness :
    0 ≤ (⟨1, 1, 50⟩ : Account).balance ∧ 0 ≤ (⟨2, 1, 110⟩ : Account).balance := by
  have h := c7_balances_nonneg
    (Reachable.transfer
      (Reachable.create
        (Reachable.create (Reachable.init [⟨1, "Arisha Barron"⟩] 1 1)
          (show AccountService.createAccount
              ⟨[⟨1, "Arisha Barron"⟩], [], [], 1, 1⟩ 1 100 =
            .ok (⟨[⟨1, "Arisha Barron"⟩], [⟨1, 1, 100⟩], [], 2, 1⟩, ⟨1, 1, 100⟩)
            by decide))
        (show AccountService.createAccount
            ⟨[⟨1, "Arisha Barron"⟩], [⟨1, 1, 100⟩], [], 2, 1⟩ 1 60 =
          .ok (⟨[⟨1, "Arisha Barron"⟩], [⟨1, 1, 100⟩, ⟨2, 1, 60⟩], [], 3, 1⟩,
               ⟨2, 1, 60⟩)
          by decide))
      (show TransferServiceTx.accountTransfer
          ⟨[⟨1, "Arisha Barron"⟩], [⟨1, 1, 100⟩, ⟨2, 1, 60⟩], [], 3, 1⟩ 1 2 50 7 =
        .ok (⟨[⟨1, "Arisha Barron"⟩], [⟨1, 1, 50⟩, ⟨2, 1, 110⟩],
              [⟨1, 1, 2, 50, 7⟩], 3, 2⟩,
             ⟨⟨1, 1, 2, 50, 7⟩, ⟨1, 1, 50⟩, ⟨2, 1, 110⟩⟩)
        by decide))
  exact ⟨h ⟨1, 1, 50⟩ (by decide), h ⟨2, 1, 110⟩ (by decide)⟩

/-- One request executed against the store: a successful call commits its
updated store, a failing call leaves the store exactly as it was (the
transaction primitive rolls back before the error propagates, and every
validation failure is raised before any mutation). -/
def step (op : Store → Except Err (Store × TransferResult)) (s : Store) :
    Store × Except Err TransferResult :=
  match op s with
  | .ok (s', r) => (s', .ok r)
  | .error e => (s, .error e)

/-- Two concurrent requests against the store.  The transactional
accountTransfer performs every store read, check and mutation inside one
prisma.$transaction, i.e. one atomic unit of work, so an interleaving of two
such requests is one of the two serial orders; `firstIsOne` selects which
request commits first. -/
def runTwo (op1 op2 : Store → Except Err (Store × TransferResult)) (s : Store)
    (firstIsOne : Bool) :
    Store × Except Err TransferResult × Except Err TransferResult :=
  if firstIsOne then
    let p1 := step op1 s
    let p2 := step op2 p1.1
    (p2.1, p1.2, p2.2)
  else
    let p2 := step op2 s
    let p1 := step op1 p2.1
    (p1.1, p1.2, p2.2)

/-- The spec's concurrency scenario run against the transactional engine:
account 1 holds 100, account 2 holds 0, and two concurrent requests each try
to transfer 60 out of account 1. -/
def concurrentDemo (firstIsOne : Bool) :
    Store × Except Err TransferResult × Except Err TransferResult :=
  runTwo (fun s => TransferServiceTx.accountTransfer s 1 2 60 0)
    (fun s => TransferServiceTx.accountTransfer s 1 2 60 1) demoStore firstIsOne

/-- C1: because the transactional accountTransfer evaluates the existence
checks and the sufficiency check inside the same atomic unit of work as the
decrement, increment and Transfer insert, every interleaving of the two
concurrent 60-unit transfer-out requests against the 100-balance account —
either commit order — yields exactly one success and one insufficient-funds
failure, and the final balances are 40 and 60. -/
theorem c1_concurrent_transfers_atomic : ∀ firstIsOne : Bool,
    (((concurrentDemo firstIsOne).2.1.isOk = true ∧
      (concurrentDemo firstIsOne).2.2 = .error .insufficientFunds) ∨
     ((concurrentDemo firstIsOne).2.2.isOk = true ∧
      (concurrentDemo firstIsOne).2.1 = .error .insufficientFunds)) ∧
    Err.kind .insufficientFunds = .invalidArgument ∧
    balanceOf (concurrentDemo firstIsOne).1 1 = 40 ∧
    balanceOf (concurrentDemo firstIsOne).1 2 = 60 := by decide

/-- C5: with a positive amount and distinct account ids, the transactional
accountTransfer fails with a NotFound-kind error exactly when the source or
the destination account is missing; and any failing call — either variant,
whatever the validation error — commits nothing: the store after the request
is exactly the store before it. -/
theorem c5_notfound_and_no_partial_effect (s : Store) (f t : Nat) (a : Int)
    (now : Nat) :
    (0 < a → f ≠ t →
      ((∃ e, TransferServiceTx.accountTransfer s f t a now = .error e ∧
          e.kind = .notFound) ↔
        (findAccount s.accounts f = none ∨ findAccount s.accounts t = none))) ∧
    (∀ e, TransferServiceTx.accountTransfer s f t a now = .error e →
      (step (fun s₁ => TransferServiceTx.accountTransfer s₁ f t a now) s).1 = s) ∧
    (∀ e, TransferService.accountTransfer s f t a now = .error e →
      (step (fun s₁ => TransferService.accountTransfer s₁ f t a now) s).1 = s) := by
  refine ⟨?_, ?_, ?_⟩
  · intro h0 hft
    constructor
    · rintro ⟨e, he, hk⟩
      by_contra hcon
      push_neg at hcon
      obtain ⟨hf, ht⟩ := hcon
      rcases hfa : findAccount s.accounts f with _ | fa
      · exact hf hfa
      rcases hta : findAccount s.accounts t with _ | ta
      · exact ht hta
      unfold TransferServiceTx.accountTransfer at he
      rw [if_neg (by omega : ¬ a ≤ 0), if_neg hft, hfa, hta] at he
      by_cases hbal : fa.balance < a
      · simp only [if_pos hbal, Except.error.injEq] at he
        rw [← he] at hk
        exact absurd hk (by simp [Err.kind])
      · simp only [if_neg hbal] at he
        exact absurd he (by simp)
    · rintro (hf | ht)
      · refine ⟨.sourceMissing, ?_, rfl⟩
        unfold TransferServiceTx.accountTransfer
        rw [if_neg (by omega : ¬ a ≤ 0), if_neg hft, hf]
      · rcases hfa : findAccount s.accounts f with _ | fa
        · refine ⟨.sourceMissing, ?_, rfl⟩
          unfold TransferServiceTx.accountTransfer
          rw [if_neg (by omega : ¬ a ≤ 0), if_neg hft, hfa]
        · refine ⟨.destMissing, ?_, rfl⟩
          unfold TransferServiceTx.accountTransfer
          rw [if_neg (by omega : ¬ a ≤ 0), if_neg hft, hfa, ht]
  · intro e he
    simp only [step, he]
  · intro e he
    simp only [step, he]

/-- Instantiation of `c5_notfound_and_no_partial_effect`: on `demoStore`,
a transfer towards the absent account 3 yields a NotFound-kind error, and
the failing over-large transfer 1 → 2 of 500 leaves the store untouched in
both variants. -/
theorem c5_notfound_and_no_partial_effect_witness :
    (∃ e, TransferServiceTx.accountTransfer demoStore 1 3 5 0 = .error e ∧
      e.kind = .notFound) ∧
    (step (fun s₁ => TransferServiceTx.accountTransfer s₁ 1 2 500 0) demoStore).1 =
      demoStore ∧
    (step (fun s₁ => TransferService.accountTransfer s₁ 1 2 500 0) demoStore).1 =
      demoStore :=
  ⟨((c5_notfound_and_no_partial_effect demoStore 1 3 5 0).1 (by decide)
      (by decide)).mpr (by decide),
   (c5_notfound_and_no_partial_effect demoStore 1 2 500 0).2.1 .insufficientFunds
     (by decide),
   (c5_notfound_and_no_partial_effect demoStore 1 2 500 0).2.2 .insufficientFunds
     (by decide)⟩

/-- C3: between two distinct existing accounts, a transfer of any amount a
with 0 < a ≤ source balance succeeds: the source balance becomes B − a, the
destination balance grows by a, exactly one Transfer row
{fromAccountId, toAccountId, amount} is appended, and the returned value is
that row together with both accounts in their post-transfer state. -/
theorem c3_successful_transfer (s : Store) (f t : Nat) (a : Int) (now : Nat)
    (fa ta : Account) (hft : f ≠ t)
    (hfa : findAccount s.accounts f = some fa)
    (hta : findAccount s.accounts t = some ta)
    (h0 : 0 < a) (hle : a ≤ fa.balance) :
    ∃ s' r, TransferServiceTx.accountTransfer s f t a now = .ok (s', r) ∧
      balanceOf s f = fa.balance ∧ balanceOf s t = ta.balance ∧
      balanceOf s' f = fa.balance - a ∧
      balanceOf s' t = ta.balance + a ∧
      s'.transfers = s.transfers ++ [⟨s.nextTransferId, f, t, a, now⟩] ∧
      r.transfer = ⟨s.nextTransferId, f, t, a, now⟩ ∧
      r.fromAccount = { fa with balance := fa.balance - a } ∧
      r.toAccount = { ta with balance := ta.balance + a } := by
  have hfid : fa.id = f := findAccount_id hfa
  have htid : ta.id = t := findAccount_id hta
  have hres : TransferServiceTx.accountTransfer s f t a now =
      .ok ({ s with accounts := updateBalance (updateBalance s.accounts f (-a)) t a,
                    transfers := s.transfers ++ [⟨s.nextTransferId, f, t, a, now⟩],
                    nextTransferId := s.nextTransferId + 1 },
           ⟨⟨s.nextTransferId, f, t, a, now⟩,
            { fa with balance := fa.balance - a },
            { ta with balance := ta.balance + a }⟩) := by
    unfold TransferServiceTx.accountTransfer
    rw [if_neg (by omega : ¬ a ≤ 0), if_neg hft, hfa, hta]
    simp only [if_neg (show ¬ fa.balance < a by omega)]
  refine ⟨_, _, hres, ?_, ?_, ?_, ?_, rfl, rfl, rfl, rfl⟩
  · unfold balanceOf
    rw [hfa]
    rfl
  · unfold balanceOf
    rw [hta]
    rfl
  · unfold balanceOf
    simp only [findAccount_updateBalance, hfa, Option.map_map, Option.map_some']
    have hne : fa.id ≠ t := by rw [hfid]; exact hft
    simp only [Function.comp, if_pos hfid, hne, if_false, if_neg]
    simp [accountId_update, hne, sub_eq_add_neg]
  · unfold balanceOf
    simp only [findAccount_updateBalance, hta, Option.map_map, Option.map_some']
    have hne : ta.id ≠ f := by rw [htid]; exact fun hh => hft hh.symm
    simp only [Function.comp, if_neg hne]
    simp [htid]

/-- Instantiation of `c3_successful_transfer`: transferring 60 from account 1
(balance 100) to account 2 (balance 0) in `demoStore`. -/
theorem c3_successful_transfer_witness :
    ∃ s' r, TransferServiceTx.accountTransfer demoStore 1 2 60 5 = .ok (s', r) ∧
      balanceOf demoStore 1 = 100 ∧ balanceOf demoStore 2 = 0 ∧
      balanceOf s' 1 = 40 ∧ balanceOf s' 2 = 60 ∧
      s'.transfers = [⟨1, 1, 2, 60, 5⟩] ∧
      r.transfer = ⟨1, 1, 2, 60, 5⟩ ∧
      r.fromAccount = ⟨1, 1, 40⟩ ∧ r.toAccount = ⟨2, 2, 60⟩ := by
  have h := c3_successful_transfer demoStore 1 2 60 5 ⟨1, 1, 100⟩ ⟨2, 2, 0⟩
    (by decide) (by decide) (by decide) (by decide) (by decide)
  simpa using h

/-- C4: every successful transfer conserves funds — the sum of the source and
destination balances after the transfer equals the sum before it. -/
theorem c4_conservation (s : Store) (f t : Nat) (a : Int) (now : Nat)
    (s' : Store) (r : TransferResult)
    (h : TransferServiceTx.accountTransfer s f t a now = .ok (s', r)) :
    balanceOf s' f + balanceOf s' t = balanceOf s f + balanceOf s t := by
  obtain ⟨h0, hft, fa, ta, hfa, hta, hle, hs', -⟩ := TransferServiceTx.accountTransfer_ok h
  have hfid : fa.id = f := findAccount_id hfa
  have htid : ta.id = t := findAccount_id hta
  have hnef : fa.id ≠ t := by rw [hfid]; exact hft
  have hnet : ta.id ≠ f := by rw [htid]; exact fun hh => hft hh.symm
  subst hs'
  unfold balanceOf
  simp only [findAccount_updateBalance, hfa, hta, Option.map_map, Option.map_some',
    Function.comp]
  simp only [if_pos hfid, if_neg hnet, accountId_update]
  simp only [if_neg hnef, if_pos htid]
  simp only [Option.getD_some]
  omega

/-- Instantiation of `c4_conservation` on the 60-unit transfer between the
two accounts of `demoStore`. -/
theorem c4_conservation_witness :
    balanceOf demoStoreAfter 1 + balanceOf demoStoreAfter 2 =
      balanceOf demoStore 1 + balanceOf demoStore 2 :=
  c4_conservation demoStore 1 2 60 0 demoStoreAfter
    ⟨⟨1, 1, 2, 60, 0⟩, ⟨1, 1, 40⟩, ⟨2, 2, 60⟩⟩ (by decide)

/-- Descending-timestamp ordering used by orderBy: { timestamp: 'desc' }. -/
def tsDesc (x y : Transfer) : Prop := y.timestamp ≤ x.timestamp

instance : DecidableRel tsDesc := fun x y => Nat.decLe y.timestamp x.timestamp

instance : IsTotal Transfer tsDesc := ⟨fun x y => Nat.le_total y.timestamp x.timestamp⟩

instance : IsTrans Transfer tsDesc := ⟨fun _ _ _ h1 h2 => Nat.le_trans h2 h1⟩

/-- The select { id, customer: { select: { name } } } shape included for the
two account relations of a history row: the account id together with its
owning customer's display name (none when the referenced row is absent). -/
structure AccountInfo where
  id : Nat
  customerName : Option String
deriving Repr, DecidableEq

/-- Resolution of the include on one account relation. -/
def accountInfo (s : Store) (accountId : Nat) : Option AccountInfo :=
  (findAccount s.accounts accountId).map (fun a =>
    { id := a.id,
      customerName := (findCustomer s.customers a.customerId).map (fun c => c.name) })

/-- One item of getTransferHistory: the Transfer row plus the included source
and destination account info. -/
structure HistoryItem where
  id : Nat
  fromAccountId : Nat
  toAccountId : Nat
  amount : Int
  timestamp : Nat
  fromAccount : Option AccountInfo
  toAccount : Option AccountInfo
deriving Repr, DecidableEq

/-- The underlying Transfer row of a history item. -/
def HistoryItem.row (item : HistoryItem) : Transfer :=
  ⟨item.id, item.fromAccountId, item.toAccountId, item.amount, item.timestamp⟩

/-- Enrichment of one Transfer row with the two included account infos. -/
def enrich (s : Store) (t : Transfer) : HistoryItem :=
  { id := t.id, fromAccountId := t.fromAccountId, toAccountId := t.toAccountId,
    amount := t.amount, timestamp := t.timestamp,
    fromAccount := accountInfo s t.fromAccountId,
    toAccount := accountInfo s t.toAccountId }

/-- src/services/transferService.js getTransferHistory (textually identical
in both variants of the file): NotFound when the account id is unknown,
otherwise every Transfer row whose source or destination is the account,
ordered by timestamp descending, each row enriched with the two account ids
and their customers' names. -/
def getTransferHistory (s : Store) (accountId : Nat) :
    Except Err (List HistoryItem) :=
  match findAccount s.accounts accountId with
  | none => .error .accountNotFound
  | some _ =>
    .ok ((List.insertionSort tsDesc
        (s.transfers.filter
          (fun t => decide (t.fromAccountId = accountId ∨ t.toAccountId = accountId)))).map
      (enrich s))

/-- Every store referenced by a transfer row or an account row resolves:
transfers point at existing accounts and accounts at existing customers
(the foreign keys of the schema). -/
def refsResolve (s : Store) : Prop :=
  (∀ tr ∈ s.transfers, (findAccount s.accounts tr.fromAccountId).isSome = true ∧
    (findAccount s.accounts tr.toAccountId).isSome = true) ∧
  (∀ a ∈ s.accounts, (findCustomer s.customers a.customerId).isSome = true)

/-- Splitting the or-filter of the history query: when no row is a
self-transfer, the rows touching an account are exactly the rows sending
from it plus the rows received by it. -/
theorem length_filter_or (L : List Transfer) (i : Nat)
    (hdisj : ∀ t ∈ L, t.fromAccountId ≠ t.toAccountId) :
    (L.filter (fun t => decide (t.fromAccountId = i ∨ t.toAccountId = i))).length =
      (L.filter (fun t => decide (t.fromAccountId = i))).length +
      (L.filter (fun t => decide (t.toAccountId = i))).length := by
  induction L with
  | nil => rfl
  | cons hd tl ih =>
    have hd_ne : hd.fromAccountId ≠ hd.toAccountId := hdisj hd (List.mem_cons_self hd tl)
    have ih' := ih (fun t ht => hdisj t (List.mem_cons_of_mem hd ht))
    by_cases hf : hd.fromAccountId = i <;> by_cases ht : hd.toAccountId = i
    · exact absurd (hf.trans ht.symm) hd_ne
    · simp only [Bool.decide_or] at ih'
      simp [List.filter_cons, hf, ht] <;> omega
    · simp only [Bool.decide_or] at ih'
      simp [List.filter_cons, hf, ht] <;> omega
    · simp only [Bool.decide_or] at ih'
      simp [List.filter_cons, hf, ht] <;> omega

/-- C8: getTransferHistory fails with NotFound exactly when the account id
is unknown; otherwise it returns a list holding exactly the Transfer rows in
which the account is source or destination — N sent plus M received gives
N + M items as no row is a self-transfer — sorted by timestamp descending
(so rows of equal timestamp never interleave with rows of a different
timestamp), and each item carries the source and destination account ids
with, whenever the schema's references resolve, their owning customers'
display names. -/
theorem c8_transfer_history (s : Store) (accountId : Nat) :
    (findAccount s.accounts accountId = none →
      getTransferHistory s accountId = .error .accountNotFound ∧
      Err.kind .accountNotFound = .notFound) ∧
    (findAccount s.accounts accountId ≠ none →
      ∃ l, getTransferHistory s accountId = .ok l) ∧
    (∀ l, getTransferHistory s accountId = .ok l →
      ((∀ tr ∈ s.transfers, tr.fromAccountId ≠ tr.toAccountId) →
        l.length =
          (s.transfers.filter
            (fun tr => decide (tr.fromAccountId = accountId))).length +
          (s.transfers.filter
            (fun tr => decide (tr.toAccountId = accountId))).length) ∧
      l.Pairwise (fun x y => y.timestamp ≤ x.timestamp) ∧
      (l.map HistoryItem.row).Perm
        (s.transfers.filter
          (fun tr => decide (tr.fromAccountId = accountId ∨
            tr.toAccountId = accountId))) ∧
      (refsResolve s → ∀ item ∈ l,
        ∃ fa fc ta tc,
          findAccount s.accounts item.fromAccountId = some fa ∧
          findCustomer s.customers fa.customerId = some fc ∧
          item.fromAccount = some ⟨fa.id, some fc.name⟩ ∧
          findAccount s.accounts item.toAccountId = some ta ∧
          findCustomer s.customers ta.customerId = some tc ∧
          item.toAccount = some ⟨ta.id, some tc.name⟩)) := by
  refine ⟨?_, ?_, ?_⟩
  · intro hnone
    unfold getTransferHistory
    rw [hnone]
    exact ⟨rfl, rfl⟩
  · intro hne
    rcases hsome : findAccount s.accounts accountId with _ | acc
    · exact absurd hsome hne
    refine ⟨(List.insertionSort tsDesc
      (s.transfers.filter
        (fun t => decide (t.fromAccountId = accountId ∨
          t.toAccountId = accountId)))).map (enrich s), ?_⟩
    unfold getTransferHistory
    rw [hsome]
  · intro l hl
    unfold getTransferHistory at hl
    rcases hsome : findAccount s.accounts accountId with _ | acc
    · rw [hsome] at hl
      exact absurd hl (by simp)
    rw [hsome] at hl
    simp only [Except.ok.injEq] at hl
    subst hl
    refine ⟨?_, ?_, ?_, ?_⟩
    · intro hdisj
      rw [List.length_map, (List.perm_insertionSort tsDesc _).length_eq]
      exact length_filter_or s.transfers accountId hdisj
    · have hsorted : List.Sorted tsDesc (List.insertionSort tsDesc
          (s.transfers.filter
            (fun t => decide (t.fromAccountId = accountId ∨
              t.toAccountId = accountId)))) :=
        List.sorted_insertionSort tsDesc _
      exact List.Pairwise.map (enrich s) (fun a b hab => hab) hsorted
    · rw [List.map_map]
      have hcomp : (HistoryItem.row ∘ enrich s) = id := by
        funext tr
        rfl
      rw [hcomp, List.map_id]
      exact List.perm_insertionSort tsDesc _
    · intro hrefs item hitem
      rw [List.mem_map] at hitem
      obtain ⟨tr, htr, rfl⟩ := hitem
      have htrf : tr ∈ s.transfers :=
        (List.mem_filter.mp ((List.perm_insertionSort tsDesc _).mem_iff.mp htr)).1
      obtain ⟨hfrom, hto⟩ := hrefs.1 tr htrf
      rcases hfa : findAccount s.accounts tr.fromAccountId with _ | fa
      · rw [hfa] at hfrom
        exact absurd hfrom (by simp)
      rcases hta : findAccount s.accounts tr.toAccountId with _ | ta
      · rw [hta] at hto
        exact absurd hto (by simp)
      have hfam : fa ∈ s.accounts := List.mem_of_find?_eq_some hfa
      have htam : ta ∈ s.accounts := List.mem_of_find?_eq_some hta
      have hfc' := hrefs.2 fa hfam
      have htc' := hrefs.2 ta htam
      rcases hfc : findCustomer s.customers fa.customerId with _ | fc
      · rw [hfc] at hfc'
        exact absurd hfc' (by simp)
      rcases htc : findCustomer s.customers ta.customerId with _ | tc
      · rw [htc] at htc'
        exact absurd htc' (by simp)
      refine ⟨fa, fc, ta, tc, hfa, hfc, ?_, hta, htc, ?_⟩
      · show accountInfo s tr.fromAccountId = some ⟨fa.id, some fc.name⟩
        unfold accountInfo
        rw [hfa]
        simp only [Option.map_some']
        rw [hfc]
        rfl
      · show accountInfo s tr.toAccountId = some ⟨ta.id, some tc.name⟩
        unfold accountInfo
        rw [hta]
        simp only [Option.map_some']
        rw [htc]
        rfl

/-- A concrete store with two transfers touching account 1 — one sent at
timestamp 5, one received at timestamp 9. -/
def histStore : Store :=
  { customers := [⟨1, "Arisha Barron"⟩, ⟨2, "Branden Gibson"⟩],
    accounts := [⟨1, 1, 100⟩, ⟨2, 2, 50⟩],
    transfers := [⟨1, 1, 2, 10, 5⟩, ⟨2, 2, 1, 20, 9⟩],
    nextAccountId := 3, nextTransferId := 3 }

/-- The history of account 1 in `histStore`: newest first, enriched with the
account ids and customer names. -/
def histList : List HistoryItem :=
  [⟨2, 2, 1, 20, 9, some ⟨2, some "Branden Gibson"⟩, some ⟨1, some "Arisha Barron"⟩⟩,
   ⟨1, 1, 2, 10, 5, some ⟨1, some "Arisha Barron"⟩, some ⟨2, some "Branden Gibson"⟩⟩]

/-- Instantiation of `c8_transfer_history` on `histStore`: account 9 is
unknown, while the history of account 1 has 1 + 1 items, is sorted newest
first, and is a permutation of the matching rows. -/
theorem c8_transfer_history_witness :
    (getTransferHistory histStore 9 = .error .accountNotFound ∧
      Err.kind .accountNotFound = .notFound) ∧
    histList.length =
      (histStore.transfers.filter (fun tr => decide (tr.fromAccountId = 1))).length +
      (histStore.transfers.filter (fun tr => decide (tr.toAccountId = 1))).length ∧
    histList.Pairwise (fun x y => y.timestamp ≤ x.timestamp) ∧
    (histList.map HistoryItem.row).Perm
      (histStore.transfers.filter
        (fun tr => decide (tr.fromAccountId = 1 ∨ tr.toAccountId = 1))) := by
  have h := (c8_transfer_history histStore 1).2.2 histList (by decide)
  exact ⟨(c8_transfer_history histStore 9).1 (by decide),
    h.1 (by decide), h.2.1, h.2.2.1⟩

/-- C9: createAccount fails with NotFound when the customer id is unknown,
fails with InvalidArgument when the initial deposit is non-positive (the
customer check runs first), and otherwise appends exactly one Account row
with balance = initialDeposit and the generated id and returns that row,
leaving every other account, the transfers and the customers untouched. -/
theorem c9_create_account (s : Store) (customerId : Nat) (initialDeposit : Int) :
    (findCustomer s.customers customerId = none →
      AccountService.createAccount s customerId initialDeposit =
        .error .customerNotFound ∧
      Err.kind .customerNotFound = .notFound) ∧
    (∀ c, findCustomer s.customers customerId = some c → initialDeposit ≤ 0 →
      AccountService.createAccount s customerId initialDeposit =
        .error .depositNotPositive ∧
      Err.kind .depositNotPositive = .invalidArgument) ∧
    (∀ c, findCustomer s.customers customerId = some c → 0 < initialDeposit →
      AccountService.createAccount s customerId initialDeposit =
        .ok ({ s with
                accounts := s.accounts ++
                  [⟨s.nextAccountId, customerId, initialDeposit⟩],
                nextAccountId := s.nextAccountId + 1 },
             ⟨s.nextAccountId, customerId, initialDeposit⟩)) := by
  refine ⟨?_, ?_, ?_⟩
  · intro hnone
    unfold AccountService.createAccount
    rw [hnone]
    exact ⟨rfl, rfl⟩
  · intro c hc hdep
    refine ⟨?_, rfl⟩
    unfold AccountService.createAccount
    rw [hc]
    simp only [if_pos hdep]
  · intro c hc hdep
    unfold AccountService.createAccount
    rw [hc]
    simp only [if_neg (show ¬ initialDeposit ≤ 0 by omega)]

/-- Instantiation of `c9_create_account` on `demoStore`: unknown customer 5,
non-positive deposit for customer 1, and a successful opening with 25. -/
theorem c9_create_account_witness :
    AccountService.createAccount demoStore 5 100 = .error .customerNotFound ∧
    AccountService.createAccount demoStore 1 0 = .error .depositNotPositive ∧
    AccountService.createAccount demoStore 1 25 =
      .ok (⟨[⟨1, "Arisha Barron"⟩, ⟨2, "Branden Gibson"⟩],
            [⟨1, 1, 100⟩, ⟨2, 2, 0⟩, ⟨3, 1, 25⟩], [], 4, 1⟩, ⟨3, 1, 25⟩) :=
  ⟨((c9_create_account demoStore 5 100).1 (by decide)).1,
   ((c9_create_account demoStore 1 0).2.1 ⟨1, "Arisha Barron"⟩ (by decide)
     (by decide)).1,
   (c9_create_account demoStore 1 25).2.2 ⟨1, "Arisha Barron"⟩ (by decide)
     (by decide)⟩

/-- On a non-positive amount, or whenever the two account ids differ, the two
accountTransfer variants compute the same result on a sequential store: with
the same-account check out of play, the remaining checks run in the same
relative order in both. -/
theorem accountTransfer_agree (s : Store) (f t : Nat) (a : Int) (now : Nat)
    (h : a ≤ 0 ∨ f ≠ t) :
    TransferService.accountTransfer s f t a now =
      TransferServiceTx.accountTransfer s f t a now := by
  unfold TransferService.accountTransfer TransferServiceTx.accountTransfer
  by_cases h0 : a ≤ 0
  · rw [if_pos h0, if_pos h0]
  have hft : f ≠ t := h.resolve_left h0
  rw [if_neg h0, if_neg h0, if_neg hft]
  rcases hfa : findAccount s.accounts f with _ | fa
  · rfl
  rcases hta : findAccount s.accounts t with _ | ta
  · rfl
  by_cases hbal : fa.balance < a
  · simp only [if_pos hbal]
  · simp only [if_neg hbal, if_neg hft]

/-- C10 counterexample: on the empty store the two accountTransfer variants
disagree on the self-transfer call (1, 1, 5): the non-transactional variant
reports the missing source account (NotFound), the transactional one the
same-account error (InvalidArgument). -/
theorem c10_variants_differ_counterexample :
    TransferService.accountTransfer ⟨[], [], [], 1, 1⟩ 1 1 5 0 =
      .error .sourceMissing ∧
    TransferServiceTx.accountTransfer ⟨[], [], [], 1, 1⟩ 1 1 5 0 =
      .error .sameAccount ∧
    TransferService.accountTransfer ⟨[], [], [], 1, 1⟩ 1 1 5 0 ≠
      TransferServiceTx.accountTransfer ⟨[], [], [], 1, 1⟩ 1 1 5 0 := by
  decide

/-- C10 (amended): executed sequentially, the two variants produce the same
outcome on every call with a non-positive amount or distinct account ids;
on a self-transfer with a positive amount both fail, the transactional
variant always with the same-account error, the legacy variant possibly with
a different error. -/
theorem c10_variants_agree (s : Store) (f t : Nat) (a : Int) (now : Nat) :
    (a ≤ 0 ∨ f ≠ t →
      TransferService.accountTransfer s f t a now =
        TransferServiceTx.accountTransfer s f t a now) ∧
    (f = t → 0 < a →
      (∃ e, TransferService.accountTransfer s f t a now = .error e) ∧
      TransferServiceTx.accountTransfer s f t a now = .error .sameAccount) := by
  refine ⟨accountTransfer_agree s f t a now, ?_⟩
  rintro rfl hpos
  constructor
  · rcases hfa : findAccount s.accounts f with _ | fa
    · refine ⟨.sourceMissing, ?_⟩
      unfold TransferService.accountTransfer
      rw [if_neg (show ¬ a ≤ 0 by omega), hfa]
    · by_cases hbal : fa.balance < a
      · refine ⟨.insufficientFunds, ?_⟩
        unfold TransferService.accountTransfer
        rw [if_neg (show ¬ a ≤ 0 by omega), hfa]
        simp only [if_pos hbal]
      · refine ⟨.sameAccount, ?_⟩
        unfold TransferService.accountTransfer
        rw [if_neg (show ¬ a ≤ 0 by omega), hfa]
        simp only [if_neg hbal]
        simp
  · unfold TransferServiceTx.accountTransfer
    rw [if_neg (show ¬ a ≤ 0 by omega)]
    simp

/-- Instantiation of `c10_variants_agree`: the variants agree on the
successful 1 → 2 transfer over `demoStore`, and both reject the
self-transfer on account 2. -/
theorem c10_variants_agree_witness :
    TransferService.accountTransfer demoStore 1 2 60 0 =
      TransferServiceTx.accountTransfer demoStore 1 2 60 0 ∧
    (∃ e, TransferService.accountTransfer demoStore 2 2 7 0 = .error e) ∧
    TransferServiceTx.accountTransfer demoStore 2 2 7 0 = .error .sameAccount :=
  ⟨(c10_variants_agree demoStore 1 2 60 0).1 (Or.inr (by decide)),
   ((c10_variants_agree demoStore 2 2 7 0).2 rfl (by decide)).1,
   ((c10_variants_agree demoStore 2 2 7 0).2 rfl (by decide)).2⟩

/-- Instantiation of `c2_validation_order` exercising each of the five
failing checks on concrete inputs over `demoStore`. -/
theorem c2_validation_order_witness :
    TransferServiceTx.accountTransfer demoStore 9 9 0 0 = .error .amountNotPositive ∧
    TransferServiceTx.accountTransfer demoStore 1 1 5 0 = .error .sameAccount ∧
    TransferServiceTx.accountTransfer demoStore 3 1 5 0 = .error .sourceMissing ∧
    TransferServiceTx.accountTransfer demoStore 1 3 5 0 = .error .destMissing ∧
    TransferServiceTx.accountTransfer demoStore 1 2 500 0 = .error .insufficientFunds :=
  ⟨((c2_validation_order demoStore 9 9 0 0).1 (by decide)).1,
   ((c2_validation_order demoStore 1 1 5 0).2.1 (by decide) rfl).1,
   ((c2_validation_order demoStore 3 1 5 0).2.2.1 (by decide) (by decide) (by decide)).1,
   ((c2_validation_order demoStore 1 3 5 0).2.2.2.1 (by decide) (by decide) ⟨1, 1, 100⟩
     (by decide) (by decide)).1,
   ((c2_validation_order demoStore 1 2 500 0).2.2.2.2 (by decide) (by decide) ⟨1, 1, 100⟩
     ⟨2, 2, 0⟩ (by decide) (by decide) (by decide)).1⟩
